import Mathlib

/-!
Verification development for the binutils binding layer
(`src/binutils_tools.cpp`): a shallow embedding of the generic typed
foreign-call dispatcher (`CFunction::__call__`), the trampoline bridge
(`CFunction::CallTrampoline`) and the raw memory accessor (`CPointer`),
together with theorems about the dispatcher's behaviour.

The external dyncall VM is modelled as a trace of the `dc*` operations
the dispatcher performs (`VMOp`), plus an oracle environment `CallEnv`
supplying the native values the typed `dcCall*` entry points would
return.  The external allocator-size probe (`UTIL_GetSize`, which calls
`_msize` / `malloc_usable_size`) and raw process memory are likewise
modelled as oracle functions.

Error constructors correspond to the exceptions the C++ raises:
* `CallError.nullPointer`       - ValueError "Function pointer is NULL." (spec: NullPointerError)
* `CallError.unknownParamType`  - ValueError "Unknown parameter type." (spec: UnsupportedTypeError)
* `CallError.argCountMismatch`  - ValueError "String parameter count does not equal with length of tuple." (spec: ArgumentCountError)
* `CallError.noReturnType`      - ValueError "String parameter has no return type." (spec: MalformedSignatureError)
* `CallError.unknownReturnType` - TypeError "Unknown return type."
* `CallError.indexError`        - the Python IndexError raised by `args[pos]` when `pos` is out of range of the argument tuple
* `CallError.extractError`      - a Boost.Python conversion failure inside `extract<T>(arg)`
* `CallError.notHooked`         - ValueError "Function was not hooked." (spec: NotHookedError)
-/

deriving instance DecidableEq for Except

/-- Signature character for void, from dyncall_signature.h (`DC_SIGCHAR_VOID`). -/
def DC_SIGCHAR_VOID : Char := 'v'

/-- Signature character for bool (`DC_SIGCHAR_BOOL`). -/
def DC_SIGCHAR_BOOL : Char := 'B'

/-- Signature character for char (`DC_SIGCHAR_CHAR`). -/
def DC_SIGCHAR_CHAR : Char := 'c'

/-- Signature character for unsigned char (`DC_SIGCHAR_UCHAR`). -/
def DC_SIGCHAR_UCHAR : Char := 'C'

/-- Signature character for short (`DC_SIGCHAR_SHORT`). -/
def DC_SIGCHAR_SHORT : Char := 's'

/-- Signature character for unsigned short (`DC_SIGCHAR_USHORT`). -/
def DC_SIGCHAR_USHORT : Char := 'S'

/-- Signature character for int (`DC_SIGCHAR_INT`). -/
def DC_SIGCHAR_INT : Char := 'i'

/-- Signature character for unsigned int (`DC_SIGCHAR_UINT`). -/
def DC_SIGCHAR_UINT : Char := 'I'

/-- Signature character for long (`DC_SIGCHAR_LONG`). -/
def DC_SIGCHAR_LONG : Char := 'j'

/-- Signature character for unsigned long (`DC_SIGCHAR_ULONG`). -/
def DC_SIGCHAR_ULONG : Char := 'J'

/-- Signature character for long long (`DC_SIGCHAR_LONGLONG`). -/
def DC_SIGCHAR_LONGLONG : Char := 'l'

/-- Signature character for unsigned long long (`DC_SIGCHAR_ULONGLONG`). -/
def DC_SIGCHAR_ULONGLONG : Char := 'L'

/-- Signature character for float (`DC_SIGCHAR_FLOAT`). -/
def DC_SIGCHAR_FLOAT : Char := 'f'

/-- Signature character for double (`DC_SIGCHAR_DOUBLE`). -/
def DC_SIGCHAR_DOUBLE : Char := 'd'

/-- Signature character for pointer (`DC_SIGCHAR_POINTER`). -/
def DC_SIGCHAR_POINTER : Char := 'p'

/-- Signature character for C string (`DC_SIGCHAR_STRING`). -/
def DC_SIGCHAR_STRING : Char := 'Z'

/-- The non-void parameter kind characters of the closed enumeration. -/
def paramChars : List Char :=
  ['B', 'c', 'C', 's', 'S', 'i', 'I', 'j', 'J', 'l', 'L', 'f', 'd', 'p', 'Z']

/-- All kind characters (void included); legal return-kind characters. -/
def kindChars : List Char := 'v' :: paramChars

/-- A dynamically typed argument or wrapped pointer coming from the
embedding Python runtime (the payloads of the `boost::python::object`
arguments the dispatcher extracts from).  Float payloads are opaque
tokens: the dispatcher never computes on them, it only forwards them. -/
inductive DynVal where
  | vbool (b : Bool)
  | vint (n : Int)
  | vfloat (t : Int)
  | vstr (s : String)
  | vptr (a : Nat)
deriving DecidableEq, Repr

/-- One argument push performed on the shared dyncall VM: exactly the
`dcArg*` entry points the argument switch of `CFunction::__call__`
invokes, with the value passed.  `argStringPtr` records a
`dcArgPointer` push of the address of a string buffer by its contents
(the buffer address itself is not representable). -/
inductive ArgOp where
  | argBool (b : Bool)
  | argChar (v : Int)
  | argShort (v : Int)
  | argInt (v : Int)
  | argLong (v : Int)
  | argLongLong (v : Int)
  | argFloat (t : Int)
  | argDouble (t : Int)
  | argPointer (a : Nat)
  | argStringPtr (s : String)
deriving DecidableEq, Repr

/-- One operation performed on the shared dyncall VM (`g_pCallVM`):
exactly the `dc*` entry points `CFunction::__call__` invokes. -/
inductive VMOp where
  | reset
  | setMode (m : Nat)
  | push (p : ArgOp)
  | callVoid (a : Nat)
  | callBool (a : Nat)
  | callChar (a : Nat)
  | callShort (a : Nat)
  | callInt (a : Nat)
  | callLong (a : Nat)
  | callLongLong (a : Nat)
  | callFloat (a : Nat)
  | callDouble (a : Nat)
  | callPointer (a : Nat)
deriving DecidableEq, Repr

/-- Whether a VM operation is one of the typed external invoke entry
points (`dcCall*`). -/
def VMOp.isInvoke : VMOp → Bool
  | .callVoid _ => true
  | .callBool _ => true
  | .callChar _ => true
  | .callShort _ => true
  | .callInt _ => true
  | .callLong _ => true
  | .callLongLong _ => true
  | .callFloat _ => true
  | .callDouble _ => true
  | .callPointer _ => true
  | _ => false

/-- True when no operation of the list is a typed invoke. -/
def noInvoke (ops : List VMOp) : Bool :=
  ops.all (fun o => !(VMOp.isInvoke o))

/-- Errors raised by the dispatcher (see the file header for the
correspondence with the C++ exceptions and the spec's taxonomy). -/
inductive CallError where
  | nullPointer
  | unknownParamType (c : Char)
  | extractError
  | indexError
  | argCountMismatch
  | noReturnType
  | unknownReturnType (c : Char)
  | notHooked
deriving DecidableEq, Repr

/-- Errors raised by the `CPointer` raw memory accessor:
`nullPointer` is ValueError "Pointer is NULL." (spec: NullPointerError),
`sizeUnavailable` is ValueError "Unable to retrieve size of address."
(spec: AllocationSizeUnavailableError), `bufferOverflow` is ValueError
"String exceeds size of memory block." (spec: BufferOverflowError). -/
inductive PyErr where
  | nullPointer
  | sizeUnavailable
  | bufferOverflow
deriving DecidableEq, Repr

/-- Modelled from the spec: the calling-convention tag `Convention_t`
is declared in binutils_tools.h, which is not under src/; the spec says
it is "one of a small closed set (e.g. cdecl, stdcall, thiscall)". -/
inductive Convention_t where
  | CONV_CDECL
  | CONV_STDCALL
  | CONV_THISCALL
deriving DecidableEq, Repr

/-- Modelled from the spec: `GetDynCallConvention` (declared in
binutils_tools.h, not under src/) maps the convention tag to the
dyncall VM mode constant; the exact numbers stand for the distinct
`DC_CALL_C_*` constants. -/
def GetDynCallConvention : Convention_t → Nat
  | .CONV_CDECL => 0
  | .CONV_STDCALL => 5
  | .CONV_THISCALL => 6

/-- Oracle for the native values the typed `dcCall*` entry points
return: the external function's behaviour is outside the model, so the
raw return of each typed invoke is a parameter.  `retString` is the
C string found at the pointer `dcCallPointer` returns when the return
kind is `Z`.  Float/double payloads are opaque tokens. -/
structure CallEnv where
  retBool : Bool
  retChar : Int
  retShort : Int
  retInt : Int
  retLong : Int
  retLongLong : Int
  retFloat : Int
  retDouble : Int
  retPointer : Nat
  retString : String
deriving DecidableEq, Repr

/-- CPointer: wraps a raw unsigned long address (`m_ulAddr`). -/
structure CPointer where
  m_ulAddr : Nat
deriving DecidableEq, Repr

/-- Modelled from the spec: `IsValid()` is declared in binutils_tools.h
(not under src/); the spec says it "reports whether the stored address
is non-zero (the only validity check performed)". -/
def CPointer.IsValid (p : CPointer) : Bool := p.m_ulAddr != 0

/-- Modelled from the spec: `GetAddress()` is declared in
binutils_tools.h (not under src/); it returns the stored raw address. -/
def CPointer.GetAddress (p : CPointer) : Nat := p.m_ulAddr

/-- CFunction: a callable bound to address, convention and signature
string (constructor at binutils_tools.cpp:160).  The C string
`m_szParams` is the list of its characters up to the terminator. -/
structure CFunction where
  m_ulAddr : Nat
  m_eConv : Convention_t
  m_szParams : List Char
deriving DecidableEq, Repr

/-- The result value `__call__` wraps the native return into, tagged by
the return kind character's type.  Unsigned kinds carry the value after
the C cast the source applies to the signed `dcCall*` result. -/
inductive RetVal where
  | empty
  | rbool (b : Bool)
  | rchar (v : Int)
  | ruchar (v : Int)
  | rshort (v : Int)
  | rushort (v : Int)
  | rint (v : Int)
  | ruint (v : Int)
  | rlong (v : Int)
  | rulong (v : Int)
  | rlonglong (v : Int)
  | rulonglong (v : Int)
  | rfloat (t : Int)
  | rdouble (t : Int)
  | rptr (p : CPointer)
  | rstr (s : String)
deriving DecidableEq, Repr

/-- The kind character a result value is tagged with. -/
def RetVal.tag : RetVal → Char
  | .empty => 'v'
  | .rbool _ => 'B'
  | .rchar _ => 'c'
  | .ruchar _ => 'C'
  | .rshort _ => 's'
  | .rushort _ => 'S'
  | .rint _ => 'i'
  | .ruint _ => 'I'
  | .rlong _ => 'j'
  | .rulong _ => 'J'
  | .rlonglong _ => 'l'
  | .rulonglong _ => 'L'
  | .rfloat _ => 'f'
  | .rdouble _ => 'd'
  | .rptr _ => 'p'
  | .rstr _ => 'Z'

/-- Two's-complement reinterpretation of an unsigned value as a signed
w-bit value (the implicit C conversion applied when an unsigned extract
is passed to the signed-typed `dcArg*` parameter). -/
def toSigned (w : Nat) (n : Int) : Int :=
  if n % ((2 ^ w : Nat) : Int) < ((2 ^ (w - 1) : Nat) : Int) then n % ((2 ^ w : Nat) : Int)
  else n % ((2 ^ w : Nat) : Int) - ((2 ^ w : Nat) : Int)

/-- One case of the argument-push switch of `CFunction::__call__`
(binutils_tools.cpp:186-204): given the parameter kind character and
the dynamically typed argument, the `dcArg*` push performed, or the
error.  The `extract<T>` conversions follow the Boost.Python builtin
converters (external to the repository): integer kinds convert a
Python int within the C type's range (32-bit platform: long is 32 bits),
`char` converts a one-character string, bool a Python bool, float kinds
a Python float, `p` resolves a wrapped pointer through `ExtractPyPtr`
(binutils_macros.h, not under src/; modelled from the spec's "pointer
kinds convert through the Raw Memory Accessor's address resolution"),
and `Z` passes the address of the Python string's buffer. -/
def argPush (c : Char) (arg : DynVal) : Except CallError ArgOp :=
  if c = DC_SIGCHAR_BOOL then
    match arg with
    | DynVal.vbool b => Except.ok (ArgOp.argBool b)
    | _ => Except.error CallError.extractError
  else if c = DC_SIGCHAR_CHAR then
    match arg with
    | DynVal.vstr s =>
      match s.toList with
      | [ch] => Except.ok (ArgOp.argChar (toSigned 8 (ch.toNat : Int)))
      | _ => Except.error CallError.extractError
    | _ => Except.error CallError.extractError
  else if c = DC_SIGCHAR_UCHAR then
    match arg with
    | DynVal.vint n =>
      if 0 ≤ n ∧ n < 256 then Except.ok (ArgOp.argChar (toSigned 8 n))
      else Except.error CallError.extractError
    | _ => Except.error CallError.extractError
  else if c = DC_SIGCHAR_SHORT then
    match arg with
    | DynVal.vint n =>
      if -32768 ≤ n ∧ n < 32768 then Except.ok (ArgOp.argShort n)
      else Except.error CallError.extractError
    | _ => Except.error CallError.extractError
  else if c = DC_SIGCHAR_USHORT then
    match arg with
    | DynVal.vint n =>
      if 0 ≤ n ∧ n < 65536 then Except.ok (ArgOp.argShort (toSigned 16 n))
      else Except.error CallError.extractError
    | _ => Except.error CallError.extractError
  else if c = DC_SIGCHAR_INT then
    match arg with
    | DynVal.vint n =>
      if -2147483648 ≤ n ∧ n < 2147483648 then Except.ok (ArgOp.argInt n)
      else Except.error CallError.extractError
    | _ => Except.error CallError.extractError
  else if c = DC_SIGCHAR_UINT then
    match arg with
    | DynVal.vint n =>
      if 0 ≤ n ∧ n < 4294967296 then Except.ok (ArgOp.argInt (toSigned 32 n))
      else Except.error CallError.extractError
    | _ => Except.error CallError.extractError
  else if c = DC_SIGCHAR_LONG then
    match arg with
    | DynVal.vint n =>
      if -2147483648 ≤ n ∧ n < 2147483648 then Except.ok (ArgOp.argLong n)
      else Except.error CallError.extractError
    | _ => Except.error CallError.extractError
  else if c = DC_SIGCHAR_ULONG then
    match arg with
    | DynVal.vint n =>
      if 0 ≤ n ∧ n < 4294967296 then Except.ok (ArgOp.argLong (toSigned 32 n))
      else Except.error CallError.extractError
    | _ => Except.error CallError.extractError
  else if c = DC_SIGCHAR_LONGLONG then
    match arg with
    | DynVal.vint n =>
      if -9223372036854775808 ≤ n ∧ n < 9223372036854775808 then Except.ok (ArgOp.argLongLong n)
      else Except.error CallError.extractError
    | _ => Except.error CallError.extractError
  else if c = DC_SIGCHAR_ULONGLONG then
    match arg with
    | DynVal.vint n =>
      if 0 ≤ n ∧ n < 18446744073709551616 then Except.ok (ArgOp.argLongLong (toSigned 64 n))
      else Except.error CallError.extractError
    | _ => Except.error CallError.extractError
  else if c = DC_SIGCHAR_FLOAT then
    match arg with
    | DynVal.vfloat t => Except.ok (ArgOp.argFloat t)
    | _ => Except.error CallError.extractError
  else if c = DC_SIGCHAR_DOUBLE then
    match arg with
    | DynVal.vfloat t => Except.ok (ArgOp.argDouble t)
    | _ => Except.error CallError.extractError
  else if c = DC_SIGCHAR_POINTER then
    match arg with
    | DynVal.vptr a => Except.ok (ArgOp.argPointer a)
    | _ => Except.error CallError.extractError
  else if c = DC_SIGCHAR_STRING then
    match arg with
    | DynVal.vstr s => Except.ok (ArgOp.argStringPtr s)
    | _ => Except.error CallError.extractError
  else Except.error (CallError.unknownParamType c)

/-- The return switch of `CFunction::__call__`
(binutils_tools.cpp:214-233): given the return kind character, the
single typed invoke performed and the wrapped result, or the
unknown-return-type error.  Unsigned kinds apply the C cast of the
source to the signed native return. -/
def callRet (env : CallEnv) (addr : Nat) (rc : Char) : Except CallError (VMOp × RetVal) :=
  if rc = DC_SIGCHAR_VOID then Except.ok (VMOp.callVoid addr, RetVal.empty)
  else if rc = DC_SIGCHAR_BOOL then Except.ok (VMOp.callBool addr, RetVal.rbool env.retBool)
  else if rc = DC_SIGCHAR_CHAR then Except.ok (VMOp.callChar addr, RetVal.rchar env.retChar)
  else if rc = DC_SIGCHAR_UCHAR then
    Except.ok (VMOp.callChar addr, RetVal.ruchar (env.retChar % 256))
  else if rc = DC_SIGCHAR_SHORT then Except.ok (VMOp.callShort addr, RetVal.rshort env.retShort)
  else if rc = DC_SIGCHAR_USHORT then
    Except.ok (VMOp.callShort addr, RetVal.rushort (env.retShort % 65536))
  else if rc = DC_SIGCHAR_INT then Except.ok (VMOp.callInt addr, RetVal.rint env.retInt)
  else if rc = DC_SIGCHAR_UINT then
    Except.ok (VMOp.callInt addr, RetVal.ruint (env.retInt % 4294967296))
  else if rc = DC_SIGCHAR_LONG then Except.ok (VMOp.callLong addr, RetVal.rlong env.retLong)
  else if rc = DC_SIGCHAR_ULONG then
    Except.ok (VMOp.callLong addr, RetVal.rulong (env.retLong % 4294967296))
  else if rc = DC_SIGCHAR_LONGLONG then
    Except.ok (VMOp.callLongLong addr, RetVal.rlonglong env.retLongLong)
  else if rc = DC_SIGCHAR_ULONGLONG then
    Except.ok (VMOp.callLongLong addr, RetVal.rulonglong (env.retLongLong % 18446744073709551616))
  else if rc = DC_SIGCHAR_FLOAT then Except.ok (VMOp.callFloat addr, RetVal.rfloat env.retFloat)
  else if rc = DC_SIGCHAR_DOUBLE then Except.ok (VMOp.callDouble addr, RetVal.rdouble env.retDouble)
  else if rc = DC_SIGCHAR_POINTER then
    Except.ok (VMOp.callPointer addr, RetVal.rptr ⟨env.retPointer⟩)
  else if rc = DC_SIGCHAR_STRING then
    Except.ok (VMOp.callPointer addr, RetVal.rstr env.retString)
  else Except.error (CallError.unknownReturnType rc)

/-- The argument loop of `CFunction::__call__`
(binutils_tools.cpp:174-206): scans the signature characters from the
left, stopping at the terminator (end of list) or at `)` — with the
cursor left on the `)` — or at a void marker — with the cursor
advanced past it (the `ptr++; break` at lines 181-182).  For every
other character it first fetches `args[pos]` (Python indexing: raises
IndexError if `pos` is out of range), then runs the push switch.
Returns the pushes accumulated so far paired with either the error or
(final `pos`, the last char read (`none` standing for the terminator),
the character list from the final cursor position). -/
def callLoop (args : List DynVal) : List Char → Nat → List VMOp →
    List VMOp × Except CallError (Nat × Option Char × List Char)
  | [], pos, acc => (acc, Except.ok (pos, none, []))
  | c :: rest, pos, acc =>
    if c = ')' then (acc, Except.ok (pos, some ')', c :: rest))
    else if c = DC_SIGCHAR_VOID then (acc, Except.ok (pos, some DC_SIGCHAR_VOID, rest))
    else
      match args[pos]? with
      | none => (acc, Except.error CallError.indexError)
      | some arg =>
        match argPush c arg with
        | Except.error e => (acc, Except.error e)
        | Except.ok op => callLoop args rest (pos + 1) (acc ++ [VMOp.push op])

/-- `CFunction::__call__` (binutils_tools.cpp:167-235): null check,
`dcReset`, `dcMode`, the argument loop, the argument-count check
(`pos != len(args)`), the missing-return-type check (`ch == '\0'`), and
the return switch on the character one past the final cursor position
(`*++ptr`).  Returns the trace of VM operations performed together with
the wrapped result or the error.  When the return-kind slot reads the
C-string terminator (nothing follows the delimiter) the switch sees
`'\0'` and raises the unknown-return-type error. -/
def CFunction.call (f : CFunction) (args : List DynVal) (env : CallEnv) :
    List VMOp × Except CallError RetVal :=
  if f.m_ulAddr = 0 then ([], Except.error CallError.nullPointer)
  else
    match callLoop args f.m_szParams 0 [] with
    | (ops, Except.error e) =>
      (VMOp.reset :: VMOp.setMode (GetDynCallConvention f.m_eConv) :: ops, Except.error e)
    | (ops, Except.ok (pos, exitCh, ptrRest)) =>
      let trace := VMOp.reset :: VMOp.setMode (GetDynCallConvention f.m_eConv) :: ops
      if pos ≠ args.length then (trace, Except.error CallError.argCountMismatch)
      else if exitCh = none then (trace, Except.error CallError.noReturnType)
      else
        match ptrRest[1]? with
        | none => (trace, Except.error (CallError.unknownReturnType (Char.ofNat 0)))
        | some rc =>
          match callRet env f.m_ulAddr rc with
          | Except.error e => (trace, Except.error e)
          | Except.ok (op, rv) => (trace ++ [op], Except.ok rv)

/-- `CFunction::CallTrampoline` (binutils_tools.cpp:237-247): null
check, then `g_pHookMngr->FindHook` — the external hook manager's
lookup, modelled as an oracle from addresses to the optional saved
trampoline address (`CHook::m_pTrampoline`) — then delegates to
`__call__` on a `CFunction` built from the trampoline address with the
same convention and signature. -/
def CFunction.CallTrampoline (f : CFunction) (hooks : Nat → Option Nat) (args : List DynVal)
    (env : CallEnv) : List VMOp × Except CallError RetVal :=
  if f.m_ulAddr = 0 then ([], Except.error CallError.nullPointer)
  else
    match hooks f.m_ulAddr with
    | none => ([], Except.error CallError.notHooked)
    | some tramp => CFunction.call ⟨tramp, f.m_eConv, f.m_szParams⟩ args env

/-- Sequence of pushes for a list of (parameter kind, argument) pairs:
the induction skeleton of the argument loop, used to state what the
loop pushes. -/
def pushes : List (Char × DynVal) → Except CallError (List ArgOp)
  | [] => Except.ok []
  | q :: qs =>
    match argPush q.1 q.2 with
    | Except.error e => Except.error e
    | Except.ok op =>
      match pushes qs with
      | Except.error e => Except.error e
      | Except.ok ops => Except.ok (op :: ops)

/-- The shared dyncall VM state: the mode set by `dcMode` and the
arguments pushed since the last `dcReset`. -/
structure VMState where
  mode : Nat
  pushed : List ArgOp
deriving DecidableEq, Repr

/-- Effect of one VM operation on the VM state: `dcReset` clears the
pushed arguments, `dcMode` sets the mode, every `dcArg*` appends, and
the typed invokes read but do not change the pushed state. -/
def applyOp (s : VMState) : VMOp → VMState
  | .reset => ⟨s.mode, []⟩
  | .setMode m => ⟨m, s.pushed⟩
  | .push p => ⟨s.mode, s.pushed ++ [p]⟩
  | _ => s

/-- Effect of a trace of VM operations on the VM state. -/
def applyOps (s : VMState) (ops : List VMOp) : VMState := ops.foldl applyOp s

/-- A fixed oracle environment used for concrete evaluations. -/
def env0 : CallEnv := ⟨false, 0, 0, 0, 0, 0, 0, 0, 0, ""⟩

/-- What `CPointer::SetString` does to memory when it succeeds:
`ptrSlot dst s` is `Set<char *>(szText, iOffset)` — the address of the
new string's buffer is stored in the pointer slot at `dst`, so the
string is afterwards reachable through one dereference of `dst`;
`bytes dst s` is `strcpy((char *)(m_ulAddr + iOffset), szText)` — the
string bytes are copied directly to `dst`. -/
inductive StrWrite where
  | ptrSlot (dst : Int) (s : String)
  | bytes (dst : Int) (s : String)
deriving DecidableEq, Repr

/-- `CPointer::SetString` (binutils_tools.cpp:79-98): null check; when
no explicit size is given (`iSize` is 0) the platform allocator-size
probe `UTIL_GetSize` (an oracle here) is consulted at `m_ulAddr +
iOffset` and a 0 probe raises; then `strlen(szText) > iSize` raises;
then the store, through the pointer slot when `bIsPtr` and directly
otherwise.  `Set<char *>` is declared in binutils_tools.h (not under
src/) and is modelled from the spec's `Write<T>(base, offset, value)`:
it stores the value at base plus offset. -/
def CPointer.SetString (self : CPointer) (getSize : Int → Nat) (szText : String)
    (iSize : Int) (iOffset : Int) (bIsPtr : Bool) : Except PyErr StrWrite :=
  if self.IsValid = false then Except.error PyErr.nullPointer
  else
    let dst : Int := (self.m_ulAddr : Int) + iOffset
    let sz : Int := if iSize = 0 then ((getSize dst : Nat) : Int) else iSize
    if iSize = 0 ∧ sz = 0 then Except.error PyErr.sizeUnavailable
    else if (szText.length : Int) > sz then Except.error PyErr.bufferOverflow
    else if bIsPtr then Except.ok (StrWrite.ptrSlot dst szText)
    else Except.ok (StrWrite.bytes dst szText)

/-- `CPointer::SetPtr` (binutils_tools.cpp:108-114): null check, then
`*(unsigned long *) m_ulAddr = ptr->GetAddress();` — the store goes to
`m_ulAddr` itself; the `iOffset` parameter is accepted but never used.
Memory is modelled as a function from byte addresses to the
pointer-sized word stored there; the returned function is the updated
memory. -/
def CPointer.SetPtr (self : CPointer) (mem : Int → Nat) (ptr : CPointer) (iOffset : Int) :
    Except PyErr (Int → Nat) :=
  if self.IsValid = false then Except.error PyErr.nullPointer
  else Except.ok (fun a => if a = (self.m_ulAddr : Int) then ptr.GetAddress else mem a)

/-- Size of a pointer / vtable slot on the 32-bit platforms the source
targets (used by the `vtable[iIndex]` indexing). -/
def psize : Int := 4

/-- `CPointer::GetVirtualFunc` (binutils_tools.cpp:121-136): null
check; on Linux builds (`isLinux`), when `bPlatformCheck` is set, the
index is incremented; the embedded vtable pointer is loaded from
`m_ulAddr`; a null vtable yields `new CPointer()` (address 0);
otherwise the pointer wraps the word at vtable slot `iIndex`. -/
def CPointer.GetVirtualFunc (self : CPointer) (mem : Int → Nat) (isLinux : Bool)
    (iIndex : Int) (bPlatformCheck : Bool) : Except PyErr CPointer :=
  if self.IsValid = false then Except.error PyErr.nullPointer
  else
    let idx : Int := if isLinux && bPlatformCheck then iIndex + 1 else iIndex
    let vtable : Nat := mem (self.m_ulAddr : Int)
    if vtable = 0 then Except.ok ⟨0⟩
    else Except.ok ⟨mem ((vtable : Int) + idx * psize)⟩

/-- A non-void parameter kind character is neither the delimiter nor
the void marker. -/
theorem paramChar_props (c : Char) (h : c ∈ paramChars) :
    c ≠ ')' ∧ c ≠ DC_SIGCHAR_VOID := by
  simp only [paramChars, List.mem_cons, List.not_mem_nil, or_false] at h
  rcases h with rfl | rfl | rfl | rfl | rfl | rfl | rfl | rfl | rfl | rfl | rfl | rfl | rfl |
    rfl | rfl <;> exact ⟨by decide, by decide⟩

/-- Invoke-freeness of a cons in terms of its parts. -/
theorem noInvoke_cons (x : VMOp) (l : List VMOp) :
    noInvoke (x :: l) = (!x.isInvoke && noInvoke l) := by
  simp [noInvoke]

/-- Invoke-freeness distributes over list append. -/
theorem noInvoke_append (l1 l2 : List VMOp) :
    noInvoke (l1 ++ l2) = (noInvoke l1 && noInvoke l2) := by
  simp [noInvoke, List.all_append]

/-- The argument loop only ever appends pushes: it preserves
invoke-freeness of the accumulated trace. -/
theorem callLoop_noInvoke (args : List DynVal) :
    ∀ (sig : List Char) (pos : Nat) (acc : List VMOp),
      noInvoke acc = true → noInvoke (callLoop args sig pos acc).1 = true := by
  intro sig
  induction sig with
  | nil => intro pos acc hacc; simpa [callLoop] using hacc
  | cons c rest ih =>
    intro pos acc hacc
    simp only [callLoop]
    split_ifs
    · simpa using hacc
    · simpa using hacc
    · rcases hg : args[pos]? with - | arg
      · simpa [hg] using hacc
      · rcases hap : argPush c arg with e | op
        · simpa [hg, hap] using hacc
        · have hpush : noInvoke [VMOp.push op] = true := rfl
          have hacc' : noInvoke (acc ++ [VMOp.push op]) = true := by
            rw [noInvoke_append, hacc, hpush]; rfl
          simpa [hg, hap] using ih (pos + 1) (acc ++ [VMOp.push op]) hacc'

/-- Main loop characterization: over a signature made of non-void
parameter kind characters followed by the delimiter, when every
argument converts, the loop performs exactly the pushes of `pushes` in
signature order, consumes one argument per parameter, and exits on the
delimiter with the cursor on it.  `front` are the arguments already
consumed (the loop position), `acc` the pushes already performed. -/
theorem callLoop_params (rest2 : List Char) (ps : List Char) :
    ∀ (front tail : List DynVal) (acc : List VMOp) (ops : List ArgOp),
      (∀ c ∈ ps, c ∈ paramChars) →
      pushes (ps.zip tail) = Except.ok ops →
      ps.length ≤ tail.length →
      callLoop (front ++ tail) (ps ++ ')' :: rest2) front.length acc
        = (acc ++ ops.map VMOp.push,
           Except.ok (front.length + ps.length, some ')', ')' :: rest2)) := by
  induction ps with
  | nil =>
    intro front tail acc ops hps hpush hlen
    simp only [List.zip_nil_left, pushes] at hpush
    injection hpush with hpush
    subst hpush
    simp [callLoop]
  | cons c ps ih =>
    intro front tail acc ops hps hpush hlen
    obtain ⟨a, tail', rfl⟩ : ∃ a t, tail = a :: t := by
      cases tail
      · exact absurd hlen (by simp)
      · exact ⟨_, _, rfl⟩
    obtain ⟨hc1, hc2⟩ := paramChar_props c (hps c (by simp))
    have hzip : (c :: ps).zip (a :: tail') = (c, a) :: ps.zip tail' := rfl
    rw [hzip] at hpush
    simp only [pushes] at hpush
    rcases hap : argPush c a with e | op₀ <;> simp only [hap] at hpush
    · exact Except.noConfusion hpush
    rcases hrest : pushes (ps.zip tail') with e | ops' <;> simp only [hrest] at hpush
    · exact Except.noConfusion hpush
    injection hpush with hpush
    subst hpush
    have hget : (front ++ a :: tail')[front.length]? = some a := by
      rw [List.getElem?_append_right (le_refl _)]
      simp
    have step :
        callLoop (front ++ a :: tail') ((c :: ps) ++ ')' :: rest2) front.length acc
          = callLoop (front ++ a :: tail') (ps ++ ')' :: rest2) (front.length + 1)
              (acc ++ [VMOp.push op₀]) := by
      simp only [List.cons_append, callLoop]
      rw [if_neg hc1, if_neg hc2]
      simp only [hget, hap]
      rfl
    rw [step, List.append_cons front a tail']
    have hfl : (front ++ [a]).length = front.length + 1 := by simp
    have hrec := ih (front ++ [a]) tail' (acc ++ [VMOp.push op₀]) ops'
      (fun c hc => hps c (by simp [hc])) hrest (by simpa using hlen)
    rw [hfl] at hrec
    rw [hrec]
    have harith : front.length + 1 + ps.length = front.length + (c :: ps).length := by
      simp
      omega
    rw [harith]
    simp [List.append_assoc]

/-- For every legal return kind character the return switch succeeds,
performs a typed invoke, and tags the wrapped result with that
character; the void kind wraps the empty value. -/
theorem callRet_kind (env : CallEnv) (addr : Nat) (rc : Char) (h : rc ∈ kindChars) :
    ∃ op rv, callRet env addr rc = Except.ok (op, rv) ∧ rv.tag = rc ∧ op.isInvoke = true ∧
      (rc = DC_SIGCHAR_VOID → rv = RetVal.empty) := by
  simp only [kindChars, paramChars, List.mem_cons, List.not_mem_nil, or_false] at h
  rcases h with rfl | rfl | rfl | rfl | rfl | rfl | rfl | rfl | rfl | rfl | rfl | rfl | rfl |
    rfl | rfl | rfl <;>
    exact ⟨_, _, rfl, rfl, rfl, by first | (intro hh; rfl) | (intro hh; exact absurd hh (by decide))⟩

/-- Assembling `__call__` from a successful loop run: with a non-null
address, the loop's exit data, a passing count check, a non-terminator
exit and a successful return switch, the call performs the reset, the
mode set, the loop's pushes and the single invoke, and returns the
wrapped value. -/
theorem call_of_loop (f : CFunction) (args : List DynVal) (env : CallEnv)
    (h0 : f.m_ulAddr ≠ 0) (ops : List VMOp) (pos : Nat) (ex : Option Char) (pr : List Char)
    (hcl : callLoop args f.m_szParams 0 [] = (ops, Except.ok (pos, ex, pr)))
    (hpos : pos = args.length) (hex : ex ≠ none) (rc : Char) (hrc : pr[1]? = some rc)
    (op : VMOp) (rv : RetVal) (hcr : callRet env f.m_ulAddr rc = Except.ok (op, rv)) :
    f.call args env
      = (VMOp.reset :: VMOp.setMode (GetDynCallConvention f.m_eConv) :: ops ++ [op],
         Except.ok rv) := by
  unfold CFunction.call
  rw [if_neg h0, hcl]
  simp [hpos, hex, hrc, hcr]

/-- A trace of reset, mode set and invoke-free operations is
invoke-free. -/
theorem noInvoke_trace (m : Nat) (ops : List VMOp) (hops : noInvoke ops = true) :
    noInvoke (VMOp.reset :: VMOp.setMode m :: ops) = true := by
  rw [noInvoke_cons, noInvoke_cons, hops]
  rfl

/-- Every failing call performs no typed invoke: the error is raised
before the external invoke step runs. -/
theorem call_err_noInvoke (f : CFunction) (args : List DynVal) (env : CallEnv) (e : CallError)
    (h : (f.call args env).2 = Except.error e) : noInvoke (f.call args env).1 = true := by
  unfold CFunction.call at h ⊢
  by_cases h0 : f.m_ulAddr = 0
  · rw [if_pos h0]
    rfl
  rw [if_neg h0] at h ⊢
  rcases hcl : callLoop args f.m_szParams 0 [] with ⟨ops, e' | ⟨pos, ex, pr⟩⟩ <;>
    simp only [hcl] at h ⊢
  · refine noInvoke_trace _ ops ?_
    have h' := callLoop_noInvoke args f.m_szParams 0 [] rfl
    rw [hcl] at h'
    simpa using h'
  have hops : noInvoke ops = true := by
    have h' := callLoop_noInvoke args f.m_szParams 0 [] rfl
    rw [hcl] at h'
    simpa using h'
  have htr := noInvoke_trace (GetDynCallConvention f.m_eConv) ops hops
  by_cases hpos : pos = args.length
  case neg =>
    rw [if_pos hpos]
    simpa using htr
  case pos =>
    rw [if_neg (show ¬pos ≠ args.length by simp [hpos])] at h ⊢
    by_cases hex : ex = none
    · rw [if_pos hex]
      simpa using htr
    rw [if_neg hex] at h ⊢
    rcases hpr : pr[1]? with - | rc
    · simp only [hpr]
      simpa using htr
    simp only [hpr] at h ⊢
    rcases hcr : callRet env f.m_ulAddr rc with e2 | ⟨op, rv⟩
    · simp only [hcr]
      simpa using htr
    simp only [hcr] at h
    exact Except.noConfusion h

/-- A leading void marker stops the scan at once: nothing is pushed, no
further parameter character is consulted, the position stays at its
start value, and the cursor is advanced past the marker. -/
theorem callLoop_void (args : List DynVal) (rest : List Char) (pos : Nat) (acc : List VMOp) :
    callLoop args (DC_SIGCHAR_VOID :: rest) pos acc = (acc, Except.ok (pos, some DC_SIGCHAR_VOID, rest)) := rfl

/-- The scan can only stop at the delimiter, at a void marker, or at
the end of the signature string. -/
theorem callLoop_exit (args : List DynVal) :
    ∀ (sig : List Char) (pos0 : Nat) (acc ops : List VMOp) (pos : Nat) (ex : Option Char)
      (pr : List Char),
      callLoop args sig pos0 acc = (ops, Except.ok (pos, ex, pr)) →
      ex = some ')' ∨ ex = some DC_SIGCHAR_VOID ∨ ex = none := by
  intro sig
  induction sig with
  | nil =>
    intro pos0 acc ops pos ex pr h
    simp only [callLoop, Prod.mk.injEq, Except.ok.injEq] at h
    obtain ⟨-, -, hex, -⟩ := h
    exact Or.inr (Or.inr hex.symm)
  | cons c rest ih =>
    intro pos0 acc ops pos ex pr h
    simp only [callLoop] at h
    split_ifs at h with hc1 hc2
    · simp only [Prod.mk.injEq, Except.ok.injEq] at h
      obtain ⟨-, -, hex, -⟩ := h
      exact Or.inl hex.symm
    · simp only [Prod.mk.injEq, Except.ok.injEq] at h
      obtain ⟨-, -, hex, -⟩ := h
      exact Or.inr (Or.inl hex.symm)
    · rcases hg : args[pos0]? with - | arg <;> simp only [hg] at h
      · simp at h
      · rcases hap : argPush c arg with e | op <;> simp only [hap] at h
        · simp at h
        · exact ih _ _ _ _ _ _ h

/-- With a non-null address every dispatch first resets the VM and sets
its mode: the trace starts with those two operations. -/
theorem call_trace_head (f : CFunction) (args : List DynVal) (env : CallEnv)
    (h0 : f.m_ulAddr ≠ 0) :
    ∃ rest, (f.call args env).1
      = VMOp.reset :: VMOp.setMode (GetDynCallConvention f.m_eConv) :: rest := by
  unfold CFunction.call
  rw [if_neg h0]
  rcases hcl : callLoop args f.m_szParams 0 [] with ⟨ops, e' | ⟨pos, ex, pr⟩⟩ <;>
    simp only [hcl]
  · exact ⟨ops, rfl⟩
  by_cases hpos : pos = args.length
  case neg =>
    rw [if_pos hpos]
    exact ⟨ops, rfl⟩
  case pos =>
    rw [if_neg (show ¬pos ≠ args.length by simp [hpos])]
    by_cases hex : ex = none
    · rw [if_pos hex]
      exact ⟨ops, rfl⟩
    rw [if_neg hex]
    rcases hpr : pr[1]? with - | rc <;> simp only [hpr]
    · exact ⟨ops, rfl⟩
    rcases hcr : callRet env f.m_ulAddr rc with e2 | ⟨op, rv⟩ <;> simp only [hcr]
    · exact ⟨ops, rfl⟩
    · exact ⟨ops ++ [op], by simp⟩

/-- A trace that starts with the reset and a mode set drives the VM to
the same final state from any two initial states: the reset erases the
initial state. -/
theorem applyOps_reset (s1 s2 : VMState) (m : Nat) (rest : List VMOp) :
    applyOps s1 (VMOp.reset :: VMOp.setMode m :: rest)
      = applyOps s2 (VMOp.reset :: VMOp.setMode m :: rest) := rfl

/-- Claim C1: for every invocation through a callable with a non-zero
target address and a well-formed signature string (non-void parameter
kinds, or a single leading void, then the delimiter, then one return
kind character), with a matching argument count and convertible
arguments, the dispatcher first resets the shared call-VM state, then
sets the VM mode from the target's convention tag, then pushes each
argument in signature order converted to the native type named by the
corresponding parameter kind (the pushes of `pushes`), then performs
exactly one typed invocation selected by the return-kind character (the
single invoke `op`, the pushes being invoke-free), and wraps the native
result into a value tagged with the return kind; a Void return kind
produces the empty value. -/
theorem claim1_dispatch (addr : Nat) (conv : Convention_t) (env : CallEnv)
    (ps : List Char) (rc : Char) (args : List DynVal) (ops : List ArgOp)
    (haddr : addr ≠ 0) (hrc : rc ∈ kindChars)
    (hps : (∀ c ∈ ps, c ∈ paramChars) ∨ ps = ['v'])
    (hpush : pushes (ps.zip args) = Except.ok ops)
    (hlen : (if ps = ['v'] then 0 else ps.length) = args.length) :
    ∃ op rv, callRet env addr rc = Except.ok (op, rv) ∧
      CFunction.call ⟨addr, conv, ps ++ ')' :: [rc]⟩ args env
        = (VMOp.reset :: VMOp.setMode (GetDynCallConvention conv) :: ops.map VMOp.push ++ [op],
           Except.ok rv) ∧
      rv.tag = rc ∧ op.isInvoke = true ∧ noInvoke (ops.map VMOp.push) = true ∧
      (rc = DC_SIGCHAR_VOID → rv = RetVal.empty) := by
  obtain ⟨op, rv, hcr, htag, hinv, hvoid⟩ := callRet_kind env addr rc hrc
  by_cases hv : ps = ['v']
  · subst hv
    rw [if_pos rfl] at hlen
    obtain rfl : args = [] := List.eq_nil_of_length_eq_zero hlen.symm
    have hz : pushes ((['v'] : List Char).zip ([] : List DynVal)) = Except.ok [] := rfl
    rw [hz] at hpush
    injection hpush with hpush
    subst hpush
    refine ⟨op, rv, hcr, ?_, htag, hinv, rfl, hvoid⟩
    have hcl : callLoop [] (['v'] ++ ')' :: [rc]) 0 []
        = ([], Except.ok (0, some 'v', ')' :: [rc])) := rfl
    exact call_of_loop ⟨addr, conv, ['v'] ++ ')' :: [rc]⟩ [] env haddr [] 0 (some 'v')
      (')' :: [rc]) hcl rfl (by simp) rc rfl op rv hcr
  · have hps' : ∀ c ∈ ps, c ∈ paramChars := by
      rcases hps with h | h
      · exact h
      · exact absurd h hv
    rw [if_neg hv] at hlen
    have hcl := callLoop_params [rc] ps [] args [] ops hps' hpush (le_of_eq hlen)
    simp only [List.nil_append, List.length_nil, Nat.zero_add] at hcl
    rw [hlen] at hcl
    refine ⟨op, rv, hcr, ?_, htag, hinv, ?_, hvoid⟩
    · exact call_of_loop ⟨addr, conv, ps ++ ')' :: [rc]⟩ args env haddr (ops.map VMOp.push)
        args.length (some ')') (')' :: [rc]) hcl rfl (by simp) rc rfl op rv hcr
    · have h' := callLoop_noInvoke args (ps ++ ')' :: [rc]) 0 [] rfl
      rw [hcl] at h'
      simpa using h'

/-- Witness for C1 at a concrete input: signature "i)i", one int
argument, address 2. -/
theorem claim1_dispatch_w :
    CFunction.call ⟨2, Convention_t.CONV_CDECL, ['i'] ++ ')' :: ['i']⟩ [DynVal.vint 5] env0
      = ([VMOp.reset, VMOp.setMode 0, VMOp.push (ArgOp.argInt 5), VMOp.callInt 2],
         Except.ok (RetVal.rint 0)) := by
  obtain ⟨op, rv, h1, h2, h3, h4, h5, h6⟩ :=
    claim1_dispatch 2 Convention_t.CONV_CDECL env0 ['i'] 'i' [DynVal.vint 5] [ArgOp.argInt 5]
      (by decide) (by decide) (Or.inl (by decide)) (by rfl) (by decide)
  have h7 : callRet env0 2 'i' = Except.ok (VMOp.callInt 2, RetVal.rint 0) := rfl
  rw [h1] at h7
  injection h7 with h7
  injection h7 with h8 h9
  subst h8
  subst h9
  exact h2

/-- Claim C2: every invocation that fails raises before the external
typed invoke step runs: its trace contains no typed invoke.  A null
target leaves the VM untouched (empty trace); otherwise the trace
begins with the reset, so the dispatch drives the VM to the same final
state from any two initial states — a failed dispatch cannot corrupt a
subsequent, independent dispatch. -/
theorem claim2_failed_dispatch (f : CFunction) (args : List DynVal) (env : CallEnv)
    (e : CallError) (s1 s2 : VMState)
    (h : (f.call args env).2 = Except.error e) :
    noInvoke (f.call args env).1 = true ∧
    (f.m_ulAddr = 0 → (f.call args env).1 = []) ∧
    (f.m_ulAddr ≠ 0 → ((f.call args env).1).head? = some VMOp.reset ∧
      applyOps s1 (f.call args env).1 = applyOps s2 (f.call args env).1) := by
  refine ⟨call_err_noInvoke f args env e h, ?_, ?_⟩
  · intro h0
    unfold CFunction.call
    rw [if_pos h0]
  · intro h0
    obtain ⟨rest, hr⟩ := call_trace_head f args env h0
    rw [hr]
    exact ⟨rfl, applyOps_reset s1 s2 _ rest⟩

/-- Witness for C2 at a concrete failing input: signature "i)i" with an
empty argument tuple fails (IndexError from args[0]) and the theorem's
conclusions hold for two distinct initial VM states. -/
theorem claim2_failed_dispatch_w :
    noInvoke (CFunction.call ⟨1, Convention_t.CONV_CDECL, ['i', ')', 'i']⟩ [] env0).1 = true ∧
    ((1 : Nat) = 0 →
      (CFunction.call ⟨1, Convention_t.CONV_CDECL, ['i', ')', 'i']⟩ [] env0).1 = []) ∧
    ((1 : Nat) ≠ 0 →
      ((CFunction.call ⟨1, Convention_t.CONV_CDECL, ['i', ')', 'i']⟩ [] env0).1).head?
          = some VMOp.reset ∧
      applyOps ⟨0, []⟩ (CFunction.call ⟨1, Convention_t.CONV_CDECL, ['i', ')', 'i']⟩ [] env0).1
        = applyOps ⟨7, [ArgOp.argInt 3]⟩
            (CFunction.call ⟨1, Convention_t.CONV_CDECL, ['i', ')', 'i']⟩ [] env0).1) :=
  claim2_failed_dispatch ⟨1, Convention_t.CONV_CDECL, ['i', ')', 'i']⟩ [] env0
    CallError.indexError ⟨0, []⟩ ⟨7, [ArgOp.argInt 3]⟩ rfl

/-- Claim C3 counterexample: for signature "ii)i" with a non-zero
address, invoking with 1 argument does not fail with the
argument-count error the claim names: the loop fetches `args[1]` before
the count check is reached, so the failure is the Python IndexError
from the tuple indexing. -/
theorem claim3_cx :
    (CFunction.call ⟨2, Convention_t.CONV_CDECL, ['i', 'i', ')', 'i']⟩ [DynVal.vint 5] env0).2
      = Except.error CallError.indexError ∧
    CallError.indexError ≠ CallError.argCountMismatch := by decide

/-- Claim C3 amended: for signature "ii)i" and a non-zero target
address, invoking with exactly 2 int arguments proceeds to the call;
with 3 arguments it fails with the argument-count error; with 1
argument it fails before the count check with the IndexError raised by
fetching the missing argument from the tuple. -/
theorem claim3_arity (addr : Nat) (conv : Convention_t) (env : CallEnv) (a b c3 : Int)
    (haddr : addr ≠ 0)
    (ha : -2147483648 ≤ a ∧ a < 2147483648) (hb : -2147483648 ≤ b ∧ b < 2147483648) :
    CFunction.call ⟨addr, conv, ['i', 'i', ')', 'i']⟩ [DynVal.vint a, DynVal.vint b] env
        = ([VMOp.reset, VMOp.setMode (GetDynCallConvention conv), VMOp.push (ArgOp.argInt a),
            VMOp.push (ArgOp.argInt b), VMOp.callInt addr], Except.ok (RetVal.rint env.retInt)) ∧
    (CFunction.call ⟨addr, conv, ['i', 'i', ')', 'i']⟩ [DynVal.vint a] env).2
        = Except.error CallError.indexError ∧
    (CFunction.call ⟨addr, conv, ['i', 'i', ')', 'i']⟩
        [DynVal.vint a, DynVal.vint b, DynVal.vint c3] env).2
        = Except.error CallError.argCountMismatch := by
  have hpa : argPush 'i' (DynVal.vint a) = Except.ok (ArgOp.argInt a) := by
    show (if -2147483648 ≤ a ∧ a < 2147483648 then Except.ok (ArgOp.argInt a)
        else Except.error CallError.extractError) = Except.ok (ArgOp.argInt a)
    exact if_pos ha
  have hpb : argPush 'i' (DynVal.vint b) = Except.ok (ArgOp.argInt b) := by
    show (if -2147483648 ≤ b ∧ b < 2147483648 then Except.ok (ArgOp.argInt b)
        else Except.error CallError.extractError) = Except.ok (ArgOp.argInt b)
    exact if_pos hb
  have hcr : callRet env addr 'i' = Except.ok (VMOp.callInt addr, RetVal.rint env.retInt) := rfl
  refine ⟨?_, ?_, ?_⟩
  · have hp2 : pushes ((['i', 'i'] : List Char).zip [DynVal.vint a, DynVal.vint b])
        = Except.ok [ArgOp.argInt a, ArgOp.argInt b] := by
      have hzip : (['i', 'i'] : List Char).zip [DynVal.vint a, DynVal.vint b]
          = [('i', DynVal.vint a), ('i', DynVal.vint b)] := rfl
      rw [hzip]
      simp only [pushes, hpa, hpb]
    have hcl := callLoop_params ['i'] ['i', 'i'] [] [DynVal.vint a, DynVal.vint b] []
      [ArgOp.argInt a, ArgOp.argInt b] (by decide) hp2 (by simp)
    simp only [List.nil_append, List.length_nil, Nat.zero_add] at hcl
    exact call_of_loop ⟨addr, conv, ['i', 'i', ')', 'i']⟩ [DynVal.vint a, DynVal.vint b] env
      haddr _ 2 (some ')') [')', 'i'] hcl rfl (by simp) 'i' rfl _ _ hcr
  · have s1 : callLoop [DynVal.vint a] ['i', 'i', ')', 'i'] 0 []
        = callLoop [DynVal.vint a] ['i', ')', 'i'] 1 [VMOp.push (ArgOp.argInt a)] := by
      simp only [callLoop]
      rw [if_neg (by decide), if_neg (by decide)]
      have hg : ([DynVal.vint a])[0]? = some (DynVal.vint a) := rfl
      simp only [hg, hpa]
      rfl
    have s2 : callLoop [DynVal.vint a] ['i', ')', 'i'] 1 [VMOp.push (ArgOp.argInt a)]
        = ([VMOp.push (ArgOp.argInt a)], Except.error CallError.indexError) := by
      simp only [callLoop]
      rw [if_neg (by decide), if_neg (by decide)]
      rfl
    unfold CFunction.call
    rw [if_neg haddr, s1.trans s2]
  · have hp2 : pushes ((['i', 'i'] : List Char).zip
        [DynVal.vint a, DynVal.vint b, DynVal.vint c3])
        = Except.ok [ArgOp.argInt a, ArgOp.argInt b] := by
      have hzip : (['i', 'i'] : List Char).zip [DynVal.vint a, DynVal.vint b, DynVal.vint c3]
          = [('i', DynVal.vint a), ('i', DynVal.vint b)] := rfl
      rw [hzip]
      simp only [pushes, hpa, hpb]
    have hcl := callLoop_params ['i'] ['i', 'i'] [] [DynVal.vint a, DynVal.vint b, DynVal.vint c3]
      [] [ArgOp.argInt a, ArgOp.argInt b] (by decide) hp2 (by simp)
    simp only [List.nil_append, List.length_nil, Nat.zero_add, List.cons_append] at hcl
    unfold CFunction.call
    rw [if_neg haddr, hcl]
    rfl

/-- Witness for the amended C3 at a concrete input. -/
theorem claim3_arity_w :
    CFunction.call ⟨2, Convention_t.CONV_CDECL, ['i', 'i', ')', 'i']⟩
        [DynVal.vint 5, DynVal.vint 6] env0
        = ([VMOp.reset, VMOp.setMode 0, VMOp.push (ArgOp.argInt 5),
            VMOp.push (ArgOp.argInt 6), VMOp.callInt 2], Except.ok (RetVal.rint 0)) ∧
    (CFunction.call ⟨2, Convention_t.CONV_CDECL, ['i', 'i', ')', 'i']⟩ [DynVal.vint 5] env0).2
        = Except.error CallError.indexError ∧
    (CFunction.call ⟨2, Convention_t.CONV_CDECL, ['i', 'i', ')', 'i']⟩
        [DynVal.vint 5, DynVal.vint 6, DynVal.vint 7] env0).2
        = Except.error CallError.argCountMismatch :=
  claim3_arity 2 Convention_t.CONV_CDECL env0 5 6 7 (by decide) (by decide) (by decide)

/-- Claim C4: invoking a callable whose stored address is 0 fails with
the null-pointer error for every signature, argument list and
environment; the trace is empty, so no call-VM mutation occurs (any
initial VM state is left unchanged). -/
theorem claim4_null (conv : Convention_t) (sig : List Char) (args : List DynVal)
    (env : CallEnv) (s : VMState) :
    CFunction.call ⟨0, conv, sig⟩ args env = ([], Except.error CallError.nullPointer) ∧
    applyOps s (CFunction.call ⟨0, conv, sig⟩ args env).1 = s :=
  ⟨rfl, rfl⟩

/-- Claim C5 counterexample: in the signature "iv)i" the Void marker
follows a parameter character, yet the scan stops at it — after
consuming one argument the loop exits with the void exit at position 1
— and the dispatch then completes successfully with that single pushed
argument; under the claim the scan would only stop at the delimiter or
at a Void found before any other parameter character. -/
theorem claim5_cx :
    callLoop [DynVal.vint 7] ['i', 'v', ')', 'i'] 0 []
      = ([VMOp.push (ArgOp.argInt 7)], Except.ok (1, some 'v', [')', 'i'])) ∧
    (CFunction.call ⟨1, Convention_t.CONV_CDECL, ['i', 'v', ')', 'i']⟩ [DynVal.vint 7] env0).2
      = Except.ok (RetVal.rint 0) := by decide

/-- Claim C5 amended: the parameter scan proceeds left to right and
stops at the delimiter, at a Void marker wherever it occurs (not only
before other parameter characters), or at the end of the string; a
leading Void means zero parameters — nothing is pushed, the position
stays 0, no further parameter character is consulted — an empty
argument list then passes the argument-count check and the dispatch
proceeds to the call, while a non-empty one fails the count check;
Void never acts as a parameter kind (the scan never pushes for it). -/
theorem claim5_void_scan (args args2 : List DynVal) (rest : List Char) (env : CallEnv)
    (addr : Nat) (conv : Convention_t) (rc : Char)
    (sig : List Char) (pos : Nat) (ex : Option Char) (pr : List Char) (ops : List VMOp)
    (haddr : addr ≠ 0) (hrc : rc ∈ kindChars)
    (hscan : callLoop args2 sig 0 [] = (ops, Except.ok (pos, ex, pr))) :
    callLoop args (DC_SIGCHAR_VOID :: rest) 0 []
        = ([], Except.ok (0, some DC_SIGCHAR_VOID, rest)) ∧
    (ex = some ')' ∨ ex = some DC_SIGCHAR_VOID ∨ ex = none) ∧
    (∃ op rv, callRet env addr rc = Except.ok (op, rv) ∧
      CFunction.call ⟨addr, conv, ['v', ')', rc]⟩ [] env
        = ([VMOp.reset, VMOp.setMode (GetDynCallConvention conv), op], Except.ok rv)) ∧
    (args ≠ [] → (CFunction.call ⟨addr, conv, ['v', ')', rc]⟩ args env).2
        = Except.error CallError.argCountMismatch) := by
  refine ⟨callLoop_void args rest 0 [], callLoop_exit args2 sig 0 [] ops pos ex pr hscan,
    ?_, ?_⟩
  · obtain ⟨op, rv, hcr, -, -, -⟩ := callRet_kind env addr rc hrc
    refine ⟨op, rv, hcr, ?_⟩
    have hcl : callLoop [] ['v', ')', rc] 0 []
        = ([], Except.ok (0, some 'v', [')', rc])) := rfl
    exact call_of_loop ⟨addr, conv, ['v', ')', rc]⟩ [] env haddr [] 0 (some 'v') [')', rc]
      hcl rfl (by simp) rc rfl op rv hcr
  · intro hne
    have hcl : callLoop args ['v', ')', rc] 0 []
        = ([], Except.ok (0, some 'v', [')', rc])) := callLoop_void args [')', rc] 0 []
    unfold CFunction.call
    rw [if_neg haddr]
    simp only [hcl]
    rw [if_pos (show (0 : Nat) ≠ args.length by
      intro h
      exact hne (List.eq_nil_of_length_eq_zero h.symm))]

/-- Witness for the amended C5 at concrete inputs: a leading void scan,
a completed void-signature dispatch with the empty argument list, and
the count-check failure with a non-empty one. -/
theorem claim5_void_scan_w :
    callLoop [DynVal.vint 3] (DC_SIGCHAR_VOID :: [')', 'i']) 0 []
        = ([], Except.ok (0, some DC_SIGCHAR_VOID, [')', 'i'])) ∧
    CFunction.call ⟨1, Convention_t.CONV_CDECL, ['v', ')', 'i']⟩ [] env0
        = ([VMOp.reset, VMOp.setMode 0, VMOp.callInt 1], Except.ok (RetVal.rint 0)) ∧
    (CFunction.call ⟨1, Convention_t.CONV_CDECL, ['v', ')', 'i']⟩ [DynVal.vint 3] env0).2
        = Except.error CallError.argCountMismatch := by
  obtain ⟨h1, -, ⟨op, rv, h3, h4⟩, h5⟩ :=
    claim5_void_scan [DynVal.vint 3] [] [')', 'i'] env0 1 Convention_t.CONV_CDECL 'i'
      [')'] 0 (some ')') [')'] [] (by decide) (by decide) rfl
  have h6 : callRet env0 1 'i' = Except.ok (VMOp.callInt 1, RetVal.rint 0) := rfl
  rw [h3] at h6
  injection h6 with h6
  injection h6 with h7 h8
  subst h7
  subst h8
  exact ⟨h1, h4, h5 (by decide)⟩

/-- Claim C6 counterexample: with the empty signature string and a
non-empty argument list the failure is the argument-count error, not
the missing-return-type (MalformedSignatureError) failure the claim
names for every argument list: the count check precedes the
return-type check. -/
theorem claim6_cx :
    (CFunction.call ⟨1, Convention_t.CONV_CDECL, []⟩ [DynVal.vint 0] env0).2
      = Except.error CallError.argCountMismatch ∧
    CallError.argCountMismatch ≠ CallError.noReturnType := by decide

/-- Claim C6 amended: invoking a callable with a non-zero address and
an empty signature string always fails before any invoke, with the
missing-return-type error (MalformedSignatureError) when the argument
list is empty, and with the argument-count error otherwise (the count
check runs first). -/
theorem claim6_empty_sig (addr : Nat) (conv : Convention_t) (args : List DynVal)
    (env : CallEnv) (haddr : addr ≠ 0) :
    CFunction.call ⟨addr, conv, []⟩ args env
      = ([VMOp.reset, VMOp.setMode (GetDynCallConvention conv)],
         Except.error (if args.length = 0 then CallError.noReturnType
           else CallError.argCountMismatch)) := by
  have hcl : callLoop args [] 0 [] = ([], Except.ok (0, none, [])) := rfl
  unfold CFunction.call
  rw [if_neg haddr]
  simp only [hcl]
  by_cases hl : args.length = 0
  · rw [if_neg (show ¬(0 : Nat) ≠ args.length by simp [hl]), if_pos trivial, if_pos hl]
  · rw [if_pos (show (0 : Nat) ≠ args.length by omega), if_neg hl]

/-- Witness for the amended C6 at concrete inputs (both the empty and
a non-empty argument list). -/
theorem claim6_empty_sig_w :
    CFunction.call ⟨1, Convention_t.CONV_CDECL, []⟩ [] env0
      = ([VMOp.reset, VMOp.setMode 0], Except.error CallError.noReturnType) ∧
    CFunction.call ⟨1, Convention_t.CONV_CDECL, []⟩ [DynVal.vint 4] env0
      = ([VMOp.reset, VMOp.setMode 0], Except.error CallError.argCountMismatch) :=
  ⟨claim6_empty_sig 1 Convention_t.CONV_CDECL [] env0 (by decide),
   claim6_empty_sig 1 Convention_t.CONV_CDECL [DynVal.vint 4] env0 (by decide)⟩

/-- Claim C7: `CallTrampoline` on a (non-null) target address with no
active hook record fails with the not-hooked error before touching the
VM; when a hook record exists it builds a synthetic callable from the
hook's saved trampoline address with the same convention and signature
and delegates the invocation to the dispatcher. -/
theorem claim7_trampoline (f : CFunction) (hooks : Nat → Option Nat) (args : List DynVal)
    (env : CallEnv) (t : Nat) (h0 : f.m_ulAddr ≠ 0) :
    (hooks f.m_ulAddr = none →
      f.CallTrampoline hooks args env = ([], Except.error CallError.notHooked)) ∧
    (hooks f.m_ulAddr = some t →
      f.CallTrampoline hooks args env
        = CFunction.call ⟨t, f.m_eConv, f.m_szParams⟩ args env) := by
  unfold CFunction.CallTrampoline
  rw [if_neg h0]
  constructor
  · intro hn
    rw [hn]
  · intro hs
    rw [hs]

/-- Witness for C7 at concrete inputs: address 5 is hooked with
trampoline 9, and the delegated call equals the dispatcher's call on
the trampoline address. -/
theorem claim7_trampoline_w :
    ((fun a => if a = 5 then some 9 else none : Nat → Option Nat) 5 = none →
      CFunction.CallTrampoline ⟨5, Convention_t.CONV_CDECL, [')', 'v']⟩
          (fun a => if a = 5 then some 9 else none) [] env0
        = ([], Except.error CallError.notHooked)) ∧
    ((fun a => if a = 5 then some 9 else none : Nat → Option Nat) 5 = some 9 →
      CFunction.CallTrampoline ⟨5, Convention_t.CONV_CDECL, [')', 'v']⟩
          (fun a => if a = 5 then some 9 else none) [] env0
        = CFunction.call ⟨9, Convention_t.CONV_CDECL, [')', 'v']⟩ [] env0) :=
  claim7_trampoline ⟨5, Convention_t.CONV_CDECL, [')', 'v']⟩
    (fun a => if a = 5 then some 9 else none) [] env0 9 (by decide)

/-- Claim C8: a string write on a valid (non-zero) pointer: with no
explicit size (0), the allocator-size probe is consulted at base plus
offset — a 0 probe fails with the size-unavailable error, and otherwise
a content longer than the probed capacity fails with the
buffer-overflow error; with an explicit size, a content longer than it
fails with the buffer-overflow error; otherwise the string is stored —
through one level of indirection (the new string reachable via one
dereference of the slot at base plus offset) when the indirection flag
is set, and directly into the bytes at base plus offset when it is
not. -/
theorem claim8_setString (self : CPointer) (getSize : Int → Nat) (s : String) (off : Int)
    (flag : Bool) (sz : Int) (h : self.IsValid = true) :
    (getSize ((self.m_ulAddr : Int) + off) = 0 →
      CPointer.SetString self getSize s 0 off flag = Except.error PyErr.sizeUnavailable) ∧
    (getSize ((self.m_ulAddr : Int) + off) ≠ 0 →
      ((s.length : Int) > (getSize ((self.m_ulAddr : Int) + off) : Int) →
        CPointer.SetString self getSize s 0 off flag = Except.error PyErr.bufferOverflow) ∧
      ((s.length : Int) ≤ (getSize ((self.m_ulAddr : Int) + off) : Int) →
        CPointer.SetString self getSize s 0 off flag
          = Except.ok (if flag then StrWrite.ptrSlot ((self.m_ulAddr : Int) + off) s
              else StrWrite.bytes ((self.m_ulAddr : Int) + off) s))) ∧
    (sz ≠ 0 →
      ((s.length : Int) > sz →
        CPointer.SetString self getSize s sz off flag = Except.error PyErr.bufferOverflow) ∧
      ((s.length : Int) ≤ sz →
        CPointer.SetString self getSize s sz off flag
          = Except.ok (if flag then StrWrite.ptrSlot ((self.m_ulAddr : Int) + off) s
              else StrWrite.bytes ((self.m_ulAddr : Int) + off) s))) := by
  have hv : ¬self.IsValid = false := by simp [h]
  refine ⟨?_, fun hnz => ⟨?_, ?_⟩, fun hnz => ⟨?_, ?_⟩⟩
  · intro hz
    unfold CPointer.SetString
    rw [if_neg hv]
    rw [if_pos ⟨rfl, by simp [hz]⟩]
  · intro hgt
    unfold CPointer.SetString
    rw [if_neg hv]
    rw [if_neg (by simp [hnz]), if_pos (by simpa using hgt)]
  · intro hle
    unfold CPointer.SetString
    rw [if_neg hv]
    rw [if_neg (by simp [hnz]), if_neg (by simpa using not_lt.mpr hle)]
    cases flag
    · rw [if_neg (by decide)]
      simp
    · rw [if_pos rfl]
      simp
  · intro hgt
    unfold CPointer.SetString
    rw [if_neg hv]
    rw [if_neg (by simp [hnz]), if_pos (by simp [hnz, hgt])]
  · intro hle
    unfold CPointer.SetString
    rw [if_neg hv]
    rw [if_neg (by simp [hnz]), if_neg (by simp [hnz, not_lt.mpr hle])]
    cases flag
    · rw [if_neg (by decide)]
      simp
    · rw [if_pos rfl]
      simp

/-- Witness for C8 at concrete inputs: the zero probe, an overflowing
write, and a successful indirect write. -/
theorem claim8_setString_w :
    CPointer.SetString ⟨4⟩ (fun a => if a = 6 then 10 else 0) "abc" 0 0 true
        = Except.error PyErr.sizeUnavailable ∧
    CPointer.SetString ⟨4⟩ (fun a => if a = 6 then 10 else 0) "abc" 2 0 false
        = Except.error PyErr.bufferOverflow ∧
    CPointer.SetString ⟨4⟩ (fun a => if a = 6 then 10 else 0) "abc" 0 2 true
        = Except.ok (StrWrite.ptrSlot 6 "abc") := by
  refine ⟨(claim8_setString ⟨4⟩ (fun a => if a = 6 then 10 else 0) "abc" 0 true 2 rfl).1
      (by decide), ?_, ?_⟩
  · exact ((claim8_setString ⟨4⟩ (fun a => if a = 6 then 10 else 0) "abc" 0 false 2 rfl).2.2
      (by decide)).1 (by decide)
  · have h := ((claim8_setString ⟨4⟩ (fun a => if a = 6 then 10 else 0) "abc" 2 true 1
      rfl).2.1 (by decide)).2 (by decide)
    simpa using h

/-- Claim C9 (code bug): `SetPtr` ignores its offset parameter: with
base 1000, offset 4 and pointer value 77 over zero memory, the word at
the base address 1000 becomes 77 while the word at base plus offset
(1004) stays 0 — the spec's offset-based `Write<T>` contract, followed
by every sibling accessor, says the store should go to 1004. -/
theorem claim9_setPtr_offset :
    (CPointer.SetPtr ⟨1000⟩ (fun _ => 0) ⟨77⟩ 4).toOption.map (fun m => (m 1000, m 1004))
      = some (77, 0) := by decide

/-- Claim C10: `GetVirtualFunc` on a valid (non-zero) object pointer:
when the embedded vtable pointer (the word at the object address) is
null it returns a fresh null pointer (address 0) instead of raising;
when it is non-null it returns a pointer holding the word stored in the
vtable slot at the requested index, the index having been incremented
by one on Linux when the platform-check flag is set. -/
theorem claim10_gvf (mem : Int → Nat) (isLinux : Bool) (self : CPointer) (iIndex : Int)
    (bp : Bool) (h : self.IsValid = true) :
    (mem (self.m_ulAddr : Int) = 0 →
      CPointer.GetVirtualFunc self mem isLinux iIndex bp = Except.ok ⟨0⟩) ∧
    (mem (self.m_ulAddr : Int) ≠ 0 →
      CPointer.GetVirtualFunc self mem isLinux iIndex bp
        = Except.ok ⟨mem ((mem (self.m_ulAddr : Int) : Int)
            + (if isLinux && bp then iIndex + 1 else iIndex) * psize)⟩) := by
  have hv : ¬self.IsValid = false := by simp [h]
  constructor
  · intro hz
    unfold CPointer.GetVirtualFunc
    rw [if_neg hv]
    simp only [hz]
    rw [if_pos trivial]
  · intro hnz
    unfold CPointer.GetVirtualFunc
    rw [if_neg hv]
    rw [if_neg hnz]

/-- Witness for C10 at concrete inputs: a null vtable yields the null
pointer; a Linux lookup of virtual slot 0 with the platform check on
reads slot 1. -/
theorem claim10_gvf_w :
    ((fun a => if a = 5 then 100 else if a = 104 then 42 else 0 : Int → Nat) 5 = 0 →
      CPointer.GetVirtualFunc ⟨5⟩ (fun a => if a = 5 then 100 else if a = 104 then 42 else 0)
          true 0 true = Except.ok ⟨0⟩) ∧
    ((fun a => if a = 5 then 100 else if a = 104 then 42 else 0 : Int → Nat) 5 ≠ 0 →
      CPointer.GetVirtualFunc ⟨5⟩ (fun a => if a = 5 then 100 else if a = 104 then 42 else 0)
          true 0 true
        = Except.ok ⟨(fun a => if a = 5 then 100 else if a = 104 then 42 else 0 : Int → Nat)
            (((fun a => if a = 5 then 100 else if a = 104 then 42 else 0 : Int → Nat) 5 : Int)
              + (if true && true then (0 : Int) + 1 else 0) * psize)⟩) :=
  claim10_gvf (fun a => if a = 5 then 100 else if a = 104 then 42 else 0) true ⟨5⟩ 0 true rfl
